import Mathlib

/-!
Verification of the wait-time aggregation engine (`WaitTimeAggregator`):
confidence scoring, weighted aggregation, cross-source reconciliation and
the confidence-tier classifier. JavaScript numbers are modelled as `ℚ`
(wait times are non-negative integers in the documented domain, so exact
rational arithmetic matches the source's numeric behaviour there);
optional (`undefined`-able) values are modelled as `Option ℚ`.
-/

namespace ParkMetrics

/-- A Queue-Times (Source A) ride record as consumed by the reconciler:
`{ id, name, wait_time, is_open }` (the id is already its string form). -/
structure QRide where
  id : String
  name : String
  wait_time : ℚ
  is_open : Bool
  deriving Repr, DecidableEq

/-- A ThemeParks.wiki (Source B) ride record as consumed by the reconciler:
`{ id, name, wait_time, is_open, single_rider_time? }`. -/
structure TRide where
  id : String
  name : String
  wait_time : ℚ
  is_open : Bool
  single_rider_time : Option ℚ
  deriving Repr, DecidableEq

/-- Output record `WaitTimeData` of the aggregator. -/
structure WaitTimeData where
  rideId : String
  rideName : String
  queueTimesWait : Option ℚ
  themeparksWait : Option ℚ
  aggregatedWait : ℚ
  confidenceScore : ℚ
  isOpen : Bool
  singleRiderTime : Option ℚ
  deriving Repr, DecidableEq

/-- `Math.round` for the non-special cases: rounds to the nearest integer,
halves toward positive infinity, i.e. `⌊x + 1/2⌋`. -/
def jsRound (x : ℚ) : ℚ := (⌊x + 1/2⌋ : ℤ)

/-- `WaitTimeAggregator.calculateConfidence(queueTime?, themeparksTime?)`:
0.0 with no data, 0.5 with one source, otherwise percentage-difference
breakpoints (with special cases for both-zero and zero average). -/
def calculateConfidence : Option ℚ → Option ℚ → ℚ
  | none, none => 0
  | none, some _ => 1/2
  | some _, none => 1/2
  | some queueTime, some themeparksTime =>
    let difference := |queueTime - themeparksTime|
    let average := (queueTime + themeparksTime) / 2
    if queueTime = 0 ∧ themeparksTime = 0 then 1
    else if average = 0 then (if difference = 0 then 1 else 3/10)
    else
      let percentDiff := (difference / average) * 100
      if percentDiff ≤ 10 then 1
      else if percentDiff ≤ 20 then 9/10
      else if percentDiff ≤ 30 then 8/10
      else if percentDiff ≤ 50 then 6/10
      else 4/10

/-- `WaitTimeAggregator.aggregateWaitTime(queueTime?, themeparksTime?)`:
returns `(aggregated, confidence)`; 0 with no data, the sole value with one
source, and the 0.55/0.45 weighted rounded blend with both. -/
def aggregateWaitTime (queueTime themeparksTime : Option ℚ) : ℚ × ℚ :=
  let confidence := calculateConfidence queueTime themeparksTime
  match queueTime, themeparksTime with
  | none, none => (0, 0)
  | none, some t => (t, confidence)
  | some q, none => (q, confidence)
  | some q, some t =>
    let queueWeight : ℚ := 55/100
    let themeparksWeight : ℚ := 45/100
    (jsRound (q * queueWeight + t * themeparksWeight), confidence)

/-- The identity mapping (`rideMapping : Map<string,string>`), as its lookup
function: `m aid = some tid` models `rideMapping.get(aid) === tid`. -/
def Mapping : Type := String → Option String

/-- The Source-B counterpart of a Source-A id:
`rideMapping.get(id)` followed by `themeparksData.find(r => r.id === tid)`,
guarded by JS truthiness of the mapped id (the empty string is falsy). -/
def lookupB (themeparksData : List TRide) (m : Mapping) (aid : String) :
    Option TRide :=
  match m aid with
  | none => none
  | some tid => if tid = "" then none else themeparksData.find? (fun r => r.id = tid)

/-- `themeparksRide?.is_open || false`: the open flag of an optional record. -/
def openOf : Option TRide → Bool
  | none => false
  | some t => t.is_open

/-- The reading pushed for one Source-A record in the first pass of
`processRideData` (lines 119-128 of the source). -/
def reconcileA (themeparksData : List TRide) (m : Mapping) (ride : QRide) :
    WaitTimeData :=
  let themeparksRide := lookupB themeparksData m ride.id
  let p := aggregateWaitTime (some ride.wait_time) (themeparksRide.map TRide.wait_time)
  { rideId := ride.id
    rideName := ride.name
    queueTimesWait := some ride.wait_time
    themeparksWait := themeparksRide.map TRide.wait_time
    aggregatedWait := p.1
    confidenceScore := p.2
    isOpen := ride.is_open || openOf themeparksRide || false
    singleRiderTime := themeparksRide.bind TRide.single_rider_time }

/-- The ids added to `processedRides` while handling one Source-A record:
its own id, plus the mapped Source-B id when truthy (added whether or not
that id was actually found in the Source-B snapshot). -/
def seenOf (m : Mapping) (ride : QRide) : List String :=
  ride.id :: (match m ride.id with
    | none => []
    | some tid => if tid = "" then [] else [tid])

/-- One iteration of the first (`queueTimesData`) loop of `processRideData`:
push the aggregated reading and extend the `processedRides` set. -/
def stepA (themeparksData : List TRide) (m : Mapping)
    (acc : List WaitTimeData × List String) (ride : QRide) :
    List WaitTimeData × List String :=
  (acc.1 ++ [reconcileA themeparksData m ride], acc.2 ++ seenOf m ride)

/-- The reading pushed for one Source-B record in the second pass of
`processRideData` (lines 144-153 of the source). -/
def reconcileB (ride : TRide) : WaitTimeData :=
  let p := aggregateWaitTime none (some ride.wait_time)
  { rideId := ride.id
    rideName := ride.name
    queueTimesWait := none
    themeparksWait := some ride.wait_time
    aggregatedWait := p.1
    confidenceScore := p.2
    isOpen := ride.is_open || false
    singleRiderTime := ride.single_rider_time }

/-- `WaitTimeAggregator.processRideData(queueTimesData, themeparksData,
rideMapping)`: first pass over Source A (building the `processedRides` set),
then a pass over Source B emitting records whose id was not seen. -/
def processRideData (queueTimesData : List QRide) (themeparksData : List TRide)
    (m : Mapping) : List WaitTimeData :=
  let st := queueTimesData.foldl (stepA themeparksData m) ([], [])
  themeparksData.foldl
    (fun results ride =>
      if st.2.elem ride.id then results else results ++ [reconcileB ride])
    st.1

/-- Confidence tiers of `getConfidenceLevel`. -/
inductive ConfLevel where
  | high | medium | low | none
  deriving Repr, DecidableEq

/-- Result record of `getConfidenceLevel`. -/
structure ConfInfo where
  level : ConfLevel
  description : String
  icon : String
  deriving Repr, DecidableEq

/-- `WaitTimeAggregator.getConfidenceLevel(score)`. -/
def getConfidenceLevel (score : ℚ) : ConfInfo :=
  if score ≥ 8/10 then
    { level := .high
      description := "High confidence - multiple sources agree"
      icon := "✓" }
  else if score ≥ 6/10 then
    { level := .medium
      description := "Medium confidence - sources partially agree"
      icon := "?" }
  else if score > 0 then
    { level := .low
      description := "Low confidence - limited or conflicting data"
      icon := "⚠" }
  else
    { level := .none
      description := "No data available"
      icon := "✗" }

/-- Modelled from the spec: `round-half-away-from-zero` rounding named by the
aggregation contract (for comparison with the source's `Math.round`). -/
def roundHalfAwayFromZero (x : ℚ) : ℚ :=
  if 0 ≤ x then ((⌊x + 1/2⌋ : ℤ) : ℚ) else ((⌈x - 1/2⌉ : ℤ) : ℚ)

/-- Modelled from the spec: the percentage-difference breakpoint score for two
present values, `diff = |A - B|`, `avg = (A + B)/2`, `percentDiff =
100 × diff / avg`, with the stated `avg = 0` edge case. -/
def specBreakpointScore (a b : ℚ) : ℚ :=
  let diff := |a - b|
  let avg := (a + b) / 2
  if avg = 0 then (if diff = 0 then 1 else 3/10)
  else
    let percentDiff := 100 * diff / avg
    if percentDiff ≤ 10 then 1
    else if percentDiff ≤ 20 then 9/10
    else if percentDiff ≤ 30 then 8/10
    else if percentDiff ≤ 50 then 6/10
    else 4/10

/-- Modelled from the spec: the number of distinct rides after identity
collapsing, `|A ∪_mapping B|`: every Source-A record is one ride (absorbing
its mapped Source-B record, if any), plus every Source-B record that no
Source-A record maps to. -/
def collapsedRideCount (queueTimesData : List QRide) (themeparksData : List TRide)
    (m : Mapping) : Nat :=
  queueTimesData.length +
    (themeparksData.filter
      (fun b => !(queueTimesData.any (fun a => m a.id == some b.id)))).length

/-- A concrete Source A snapshot whose single ride id textually collides with
the Source B snapshot `tColl` (the two providers use separate id namespaces,
so these denote different physical rides). -/
def qColl : List QRide := [⟨"1", "Coaster", 10, true⟩]

/-- A concrete Source B snapshot colliding with `qColl` on the id string. -/
def tColl : List TRide := [⟨"1", "Carousel", 30, true, none⟩]

/-- The empty identity mapping. -/
def emptyMapping : Mapping := fun _ => none

/-- A Source B snapshot whose single record has the empty string as id. -/
def tEmptyId : List TRide := [⟨"", "Ghost", 30, true, none⟩]

/-- A mapping sending `qColl`'s ride to the empty-string Source-B id (which
JS truthiness makes the reconciler ignore). -/
def mEmptyStr : Mapping := fun s => if s = "1" then some "" else none

/-- A concrete well-formed Source A snapshot. -/
def qOk : List QRide := [⟨"1", "Space Mountain", 45, true⟩]

/-- A concrete well-formed Source B snapshot. -/
def tOk : List TRide := [⟨"abc", "Space Mountain", 50, true, some 20⟩, ⟨"def", "Pirates", 15, false, none⟩]

/-- A concrete identity mapping linking `qOk`'s ride to `tOk`'s first ride. -/
def mOk : Mapping := fun s => if s = "1" then some "abc" else none

/-! ### Helper lemmas -/

lemma aggregateWaitTime_snd (q t : Option ℚ) :
    (aggregateWaitTime q t).2 = calculateConfidence q t := by
  cases q <;> cases t <;> rfl

lemma getConfidenceLevel_high_iff (s : ℚ) :
    (getConfidenceLevel s).level = ConfLevel.high ↔ 8/10 ≤ s := by
  unfold getConfidenceLevel
  split_ifs with h1 h2 h3 <;> simp <;> linarith

lemma getConfidenceLevel_medium_iff (s : ℚ) :
    (getConfidenceLevel s).level = ConfLevel.medium ↔ 6/10 ≤ s ∧ s < 8/10 := by
  unfold getConfidenceLevel
  split_ifs with h1 h2 h3 <;> simp <;> try push_neg
  all_goals
    first
      | (constructor <;> linarith)
      | (intro h; linarith)
      | linarith

lemma getConfidenceLevel_low_iff (s : ℚ) :
    (getConfidenceLevel s).level = ConfLevel.low ↔ 0 < s ∧ s < 6/10 := by
  unfold getConfidenceLevel
  split_ifs with h1 h2 h3 <;> simp <;> try push_neg
  all_goals
    first
      | (constructor <;> linarith)
      | (intro h; linarith)
      | linarith

lemma getConfidenceLevel_none_iff (s : ℚ) :
    (getConfidenceLevel s).level = ConfLevel.none ↔ s ≤ 0 := by
  unfold getConfidenceLevel
  split_ifs with h1 h2 h3 <;> simp <;> linarith

lemma foldlA_eq (td : List TRide) (m : Mapping) :
    ∀ (qd : List QRide) (rs : List WaitTimeData) (ps : List String),
      qd.foldl (stepA td m) (rs, ps) =
        (rs ++ qd.map (reconcileA td m), ps ++ qd.flatMap (seenOf m)) := by
  intro qd
  induction qd with
  | nil => intro rs ps; simp
  | cons r qd ih =>
    intro rs ps
    simp only [List.foldl_cons, stepA, ih, List.map_cons, List.flatMap_cons]
    simp

lemma foldlB_eq (seen : List String) :
    ∀ (td : List TRide) (rs : List WaitTimeData),
      td.foldl (fun results ride =>
          if seen.elem ride.id then results else results ++ [reconcileB ride]) rs =
        rs ++ (td.filter (fun r => !(seen.elem r.id))).map reconcileB := by
  intro td
  induction td with
  | nil => intro rs; simp
  | cons t td ih =>
    intro rs
    simp at ih
    by_cases hm : t.id ∈ seen <;>
      simp [List.foldl_cons, List.filter_cons, hm, ih]

lemma processRideData_eq (qd : List QRide) (td : List TRide) (m : Mapping) :
    processRideData qd td m =
      qd.map (reconcileA td m) ++
        (td.filter
          (fun r => !((qd.flatMap (seenOf m)).elem r.id))).map reconcileB := by
  simp only [processRideData]
  rw [foldlA_eq td m qd [] []]
  simp only [List.nil_append]
  rw [foldlB_eq]

lemma seen_mem_iff (qd : List QRide) (m : Mapping) (x : String)
    (hdisj : x ∉ qd.map QRide.id)
    (hne : ∀ a ∈ qd, m a.id ≠ some "") :
    x ∈ qd.flatMap (seenOf m) ↔ ∃ a ∈ qd, m a.id = some x := by
  rw [List.mem_flatMap]
  constructor
  · rintro ⟨a, ha, hin⟩
    have hxa : x ≠ a.id := by
      intro h
      exact hdisj (h ▸ List.mem_map_of_mem QRide.id ha)
    rcases hma : m a.id with _ | tid
    · simp only [seenOf, hma] at hin
      simp at hin
      exact absurd hin hxa
    · have htid : tid ≠ "" := by
        intro h
        exact hne a ha (by rw [hma, h])
      simp only [seenOf, hma] at hin
      rw [if_neg htid] at hin
      simp at hin
      rcases hin with h | h
      · exact absurd h hxa
      · exact ⟨a, ha, by rw [hma, h]⟩
  · rintro ⟨a, ha, hma⟩
    refine ⟨a, ha, ?_⟩
    have hx : x ≠ "" := by
      intro h
      exact hne a ha (by rw [hma, h])
    simp only [seenOf, hma]
    rw [if_neg hx]
    simp

lemma seen_elem_eq_any (qd : List QRide) (m : Mapping) (x : String)
    (hdisj : x ∉ qd.map QRide.id)
    (hne : ∀ a ∈ qd, m a.id ≠ some "") :
    ((qd.flatMap (seenOf m)).elem x) = (qd.any (fun a => m a.id == some x)) := by
  have hiff := seen_mem_iff qd m x hdisj hne
  cases h1 : (qd.flatMap (seenOf m)).elem x <;>
    cases h2 : qd.any (fun a => m a.id == some x) <;> try rfl
  · exfalso
    rw [List.any_eq_true] at h2
    obtain ⟨a, ha, hbeq⟩ := h2
    rw [beq_iff_eq] at hbeq
    have hx := hiff.mpr ⟨a, ha, hbeq⟩
    rw [← List.elem_iff, h1] at hx
    exact Bool.false_ne_true hx
  · exfalso
    have hx : x ∈ qd.flatMap (seenOf m) := List.elem_iff.mp h1
    obtain ⟨a, ha, hma⟩ := hiff.mp hx
    have h2' : qd.any (fun a => m a.id == some x) = true :=
      List.any_eq_true.mpr ⟨a, ha, beq_iff_eq.mpr hma⟩
    rw [h2] at h2'
    exact Bool.false_ne_true h2'

lemma calculateConfidence_bounds (q t : Option ℚ) :
    0 ≤ calculateConfidence q t ∧ calculateConfidence q t ≤ 1 := by
  match q, t with
  | none, none => norm_num [calculateConfidence]
  | none, some t => norm_num [calculateConfidence]
  | some q, none => norm_num [calculateConfidence]
  | some q, some t =>
    simp only [calculateConfidence]
    split_ifs <;> norm_num

lemma calculateConfidence_pos_left (v : ℚ) (t : Option ℚ) :
    0 < calculateConfidence (some v) t := by
  match t with
  | none => norm_num [calculateConfidence]
  | some t =>
    simp only [calculateConfidence]
    split_ifs <;> norm_num

lemma calculateConfidence_pos_right (q : Option ℚ) (v : ℚ) :
    0 < calculateConfidence q (some v) := by
  match q with
  | none => norm_num [calculateConfidence]
  | some w => exact calculateConfidence_pos_left w (some v)

lemma calculateConfidence_eq_zero_iff (q t : Option ℚ) :
    calculateConfidence q t = 0 ↔ q = none ∧ t = none := by
  constructor
  · intro h
    match q, t with
    | none, none => exact ⟨rfl, rfl⟩
    | none, some t =>
      have := calculateConfidence_pos_right (none : Option ℚ) t
      rw [h] at this
      exact absurd this (by norm_num)
    | some q, none =>
      have := calculateConfidence_pos_left q (none : Option ℚ)
      rw [h] at this
      exact absurd this (by norm_num)
    | some q, some t =>
      have := calculateConfidence_pos_left q (some t)
      rw [h] at this
      exact absurd this (by norm_num)
  · rintro ⟨rfl, rfl⟩
    rfl

lemma reconcileA_conf (td : List TRide) (m : Mapping) (a : QRide) :
    (reconcileA td m a).confidenceScore =
      calculateConfidence (some a.wait_time)
        ((lookupB td m a.id).map TRide.wait_time) := by
  simp [reconcileA, aggregateWaitTime_snd]

lemma reconcileB_conf (b : TRide) :
    (reconcileB b).confidenceScore = calculateConfidence none (some b.wait_time) := by
  simp [reconcileB, aggregateWaitTime_snd]

lemma jsRound_nonneg (x : ℚ) (hx : 0 ≤ x) : 0 ≤ jsRound x := by
  unfold jsRound
  have h : (0:ℤ) ≤ ⌊x + 1/2⌋ := Int.floor_nonneg.mpr (by linarith)
  exact_mod_cast h

lemma lookupB_mem (td : List TRide) (m : Mapping) (aid : String) (tr : TRide)
    (h : lookupB td m aid = some tr) : tr ∈ td := by
  rcases hma : m aid with _ | tid
  · simp only [lookupB, hma] at h
    exact Option.noConfusion h
  · simp only [lookupB, hma] at h
    by_cases he : tid = ""
    · rw [if_pos he] at h
      exact Option.noConfusion h
    · rw [if_neg he] at h
      exact List.mem_of_find?_eq_some h

/-! ### Claim theorems: the pure scoring / aggregation functions -/

/-- Claim C3: `calculateConfidence` returns 0.0 when both wait-time inputs are
absent, 0.5 when exactly one is present (regardless of its value), and 1.0
when both are present and both equal 0. -/
theorem calculateConfidence_presence_cases (v : ℚ) :
    calculateConfidence none none = 0 ∧
    calculateConfidence (some v) none = 1/2 ∧
    calculateConfidence none (some v) = 1/2 ∧
    calculateConfidence (some 0) (some 0) = 1 := by
  refine ⟨rfl, rfl, rfl, by simp [calculateConfidence]⟩

/-- Claim C5: on `[0, 1]` the tier of `getConfidenceLevel` is `high` exactly
when `score ≥ 0.8`, `medium` exactly when `0.6 ≤ score < 0.8`, `low` exactly
when `0 < score < 0.6`, and `none` exactly when `score = 0`; with the stated
boundary examples. -/
theorem getConfidenceLevel_tiers (s : ℚ) (h0 : 0 ≤ s) (h1 : s ≤ 1) :
    (((getConfidenceLevel s).level = ConfLevel.high ↔ 8/10 ≤ s) ∧
     ((getConfidenceLevel s).level = ConfLevel.medium ↔ 6/10 ≤ s ∧ s < 8/10) ∧
     ((getConfidenceLevel s).level = ConfLevel.low ↔ 0 < s ∧ s < 6/10) ∧
     ((getConfidenceLevel s).level = ConfLevel.none ↔ s = 0)) ∧
    (getConfidenceLevel (8/10)).level = ConfLevel.high ∧
    (getConfidenceLevel (79999/100000)).level = ConfLevel.medium ∧
    (getConfidenceLevel (6/10)).level = ConfLevel.medium ∧
    (getConfidenceLevel (59999/100000)).level = ConfLevel.low ∧
    (getConfidenceLevel 0).level = ConfLevel.none := by
  refine ⟨⟨getConfidenceLevel_high_iff s, getConfidenceLevel_medium_iff s,
           getConfidenceLevel_low_iff s, ?_⟩, ?_, ?_, ?_, ?_, ?_⟩
  · rw [getConfidenceLevel_none_iff]
    constructor <;> intro h <;> linarith
  · rw [getConfidenceLevel_high_iff]
  · rw [getConfidenceLevel_medium_iff]; norm_num
  · rw [getConfidenceLevel_medium_iff]; norm_num
  · rw [getConfidenceLevel_low_iff]; norm_num
  · rw [getConfidenceLevel_none_iff]

/-- Witness for the C5 theorem at the concrete score `7/10`. -/
theorem getConfidenceLevel_tiers_witness :
    ((((getConfidenceLevel (7/10)).level = ConfLevel.high ↔ 8/10 ≤ (7/10 : ℚ)) ∧
      ((getConfidenceLevel (7/10)).level = ConfLevel.medium ↔
        6/10 ≤ (7/10 : ℚ) ∧ (7/10 : ℚ) < 8/10) ∧
      ((getConfidenceLevel (7/10)).level = ConfLevel.low ↔
        0 < (7/10 : ℚ) ∧ (7/10 : ℚ) < 6/10) ∧
      ((getConfidenceLevel (7/10)).level = ConfLevel.none ↔ (7/10 : ℚ) = 0)) ∧
     (getConfidenceLevel (8/10)).level = ConfLevel.high ∧
     (getConfidenceLevel (79999/100000)).level = ConfLevel.medium ∧
     (getConfidenceLevel (6/10)).level = ConfLevel.medium ∧
     (getConfidenceLevel (59999/100000)).level = ConfLevel.low ∧
     (getConfidenceLevel 0).level = ConfLevel.none) :=
  getConfidenceLevel_tiers (7/10) (by norm_num) (by norm_num)

/-- Claim C4: `aggregateWaitTime` yields 0 with no data, the sole present
value verbatim, and with both values present the rounded `0.55/0.45` blend,
which on non-negative inputs agrees with round-half-away-from-zero;
`A = 45, B = 50` gives 47. -/
theorem aggregateWaitTime_value (a b : ℚ) (ha : 0 ≤ a) (hb : 0 ≤ b) :
    (aggregateWaitTime none none).1 = 0 ∧
    (aggregateWaitTime (some a) none).1 = a ∧
    (aggregateWaitTime none (some b)).1 = b ∧
    (aggregateWaitTime (some a) (some b)).1 =
      roundHalfAwayFromZero (a * (55/100) + b * (45/100)) ∧
    (aggregateWaitTime (some 45) (some 50)).1 = 47 := by
  refine ⟨rfl, rfl, rfl, ?_, ?_⟩
  · have hx : (0:ℚ) ≤ a * (55/100) + b * (45/100) := by positivity
    have he : (aggregateWaitTime (some a) (some b)).1 =
        jsRound (a * (55/100) + b * (45/100)) := rfl
    rw [he]
    unfold jsRound roundHalfAwayFromZero
    rw [if_pos hx]
  · have he : (aggregateWaitTime (some 45) (some 50)).1 =
        jsRound (45 * (55/100) + 50 * (45/100)) := rfl
    rw [he]
    unfold jsRound
    norm_num

/-- Witness for the C4 theorem at the concrete pair `(45, 50)`. -/
theorem aggregateWaitTime_value_witness :
    (aggregateWaitTime (some 45) (some 50)).1 =
      roundHalfAwayFromZero (45 * (55/100) + 50 * (45/100)) :=
  (aggregateWaitTime_value 45 50 (by norm_num) (by norm_num)).2.2.2.1

/-- Claim C2: for present, non-negative, not-both-zero inputs,
`calculateConfidence` equals the spec's percentage-difference breakpoint
table, and `A = 45, B = 50` scores `0.9`. -/
theorem calculateConfidence_breakpoints (a b : ℚ) (ha : 0 ≤ a) (hb : 0 ≤ b)
    (hne : ¬(a = 0 ∧ b = 0)) :
    calculateConfidence (some a) (some b) = specBreakpointScore a b ∧
    calculateConfidence (some 45) (some 50) = 9/10 := by
  constructor
  · have hs : a + b ≠ 0 := by
      intro h
      exact hne ⟨by linarith, by linarith⟩
    have havg : (a + b) / 2 ≠ 0 := by
      rw [div_ne_zero_iff]
      exact ⟨hs, by norm_num⟩
    have hcomm : |a - b| / ((a + b) / 2) * 100 = 100 * |a - b| / ((a + b) / 2) := by
      ring
    simp only [calculateConfidence, specBreakpointScore]
    rw [if_neg hne, if_neg havg, if_neg havg, hcomm]
  · norm_num [calculateConfidence, abs_of_nonpos]

/-- Witness for the C2 theorem at the concrete pair `(45, 50)`. -/
theorem calculateConfidence_breakpoints_witness :
    calculateConfidence (some 45) (some 50) = specBreakpointScore 45 50 :=
  (calculateConfidence_breakpoints 45 50 (by norm_num) (by norm_num)
    (by norm_num)).1

/-- Claim C10: `calculateConfidence` is symmetric in its two arguments, even
though the accompanying aggregated value is not (shown at `(10, 20)`). -/
theorem calculateConfidence_symm (o₁ o₂ : Option ℚ) :
    calculateConfidence o₁ o₂ = calculateConfidence o₂ o₁ ∧
    (aggregateWaitTime (some 10) (some 20)).1 ≠
      (aggregateWaitTime (some 20) (some 10)).1 := by
  constructor
  · match o₁, o₂ with
    | none, none => rfl
    | none, some t => rfl
    | some q, none => rfl
    | some q, some t =>
      have havg : (q + t) / 2 = 0 ↔ (t + q) / 2 = 0 := by rw [add_comm]
      have hdiff : |q - t| = 0 ↔ |t - q| = 0 := by rw [abs_sub_comm]
      have h10 : |q - t| / ((q + t) / 2) * 100 ≤ 10 ↔
          |t - q| / ((t + q) / 2) * 100 ≤ 10 := by
        rw [abs_sub_comm q t, add_comm q t]
      have h20 : |q - t| / ((q + t) / 2) * 100 ≤ 20 ↔
          |t - q| / ((t + q) / 2) * 100 ≤ 20 := by
        rw [abs_sub_comm q t, add_comm q t]
      have h30 : |q - t| / ((q + t) / 2) * 100 ≤ 30 ↔
          |t - q| / ((t + q) / 2) * 100 ≤ 30 := by
        rw [abs_sub_comm q t, add_comm q t]
      have h50 : |q - t| / ((q + t) / 2) * 100 ≤ 50 ↔
          |t - q| / ((t + q) / 2) * 100 ≤ 50 := by
        rw [abs_sub_comm q t, add_comm q t]
      simp only [calculateConfidence]
      exact if_congr and_comm rfl
        (if_congr havg (if_congr hdiff rfl rfl)
          (if_congr h10 rfl
            (if_congr h20 rfl
              (if_congr h30 rfl
                (if_congr h50 rfl rfl)))))
  · have hl : (aggregateWaitTime (some 10) (some 20)).1 =
        jsRound (10 * (55/100) + 20 * (45/100)) := rfl
    have hr : (aggregateWaitTime (some 20) (some 10)).1 =
        jsRound (20 * (55/100) + 10 * (45/100)) := rfl
    rw [hl, hr]
    unfold jsRound
    norm_num

/-! ### Claim theorems: the cross-source reconciler -/

/-- Claim C6: the output of `processRideData` is all Source-A-driven readings
first, in Source A's snapshot order, followed by the Source-B-only readings
(those whose id was not marked seen), in Source B's snapshot order. -/
theorem processRideData_order (qd : List QRide) (td : List TRide) (m : Mapping) :
    processRideData qd td m =
      qd.map (reconcileA td m) ++
        (td.filter
          (fun r => !((qd.flatMap (seenOf m)).elem r.id))).map reconcileB :=
  processRideData_eq qd td m

/-- Counterexample to claim C1 as stated: with an empty mapping, a Source-B
record whose id string happens to equal a Source-A record's id is silently
dropped, so only one reading is emitted although the two records denote two
distinct rides after identity collapsing; and a mapping entry whose target is
the empty string is ignored by JS truthiness, so the mapped Source-B record
is emitted a second time instead of collapsing. -/
theorem processRideData_count_cex :
    ((processRideData qColl tColl emptyMapping).length = 1 ∧
      collapsedRideCount qColl tColl emptyMapping = 2) ∧
    ((processRideData qColl tEmptyId mEmptyStr).length = 2 ∧
      collapsedRideCount qColl tEmptyId mEmptyStr = 1) := by
  refine ⟨⟨?_, ?_⟩, ?_, ?_⟩
  · rw [processRideData_eq]
    simp [qColl, tColl, emptyMapping, seenOf]
  · simp [collapsedRideCount, qColl, tColl, emptyMapping]
  · rw [processRideData_eq]
    simp [qColl, tEmptyId, mEmptyStr, seenOf]
  · simp [collapsedRideCount, qColl, tEmptyId, mEmptyStr]

/-- Claim C1 (amended): provided no Source-B record id textually collides
with a Source-A record id and the mapping never returns the empty string,
`processRideData` emits exactly one reading per distinct ride identity:
its output length is the Source-A count plus the count of Source-B records
not targeted by the mapping, and is 0 when both snapshots are empty. -/
theorem processRideData_count (qd : List QRide) (td : List TRide) (m : Mapping)
    (hdisj : ∀ b ∈ td, b.id ∉ qd.map QRide.id)
    (hne : ∀ a ∈ qd, m a.id ≠ some "") :
    (processRideData qd td m).length = collapsedRideCount qd td m ∧
    (processRideData ([] : List QRide) ([] : List TRide) m).length = 0 := by
  constructor
  · rw [processRideData_eq, List.length_append, List.length_map,
      List.length_map, collapsedRideCount]
    congr 1
    apply congrArg
    apply List.filter_congr
    intro b hb
    rw [seen_elem_eq_any qd m b.id (hdisj b hb) hne]
  · rfl

/-- Witness for the C1 theorem on the concrete snapshots `qOk`, `tOk` with
mapping `mOk` (one matched ride, one Source-B-only ride). -/
theorem processRideData_count_witness :
    (processRideData qOk tOk mOk).length = collapsedRideCount qOk tOk mOk ∧
    (processRideData ([] : List QRide) ([] : List TRide) mOk).length = 0 :=
  processRideData_count qOk tOk mOk
    (by
      intro b hb
      simp only [tOk, List.mem_cons, List.not_mem_nil, or_false] at hb
      rcases hb with rfl | rfl <;> simp [qOk])
    (by
      intro a ha
      simp only [qOk, List.mem_cons, List.not_mem_nil, or_false] at ha
      rcases ha with rfl <;> simp [mOk])

/-- Claim C7: every emitted reading's `isOpen` is the OR of the open flags of
the sources that supplied it: a Source-A-driven reading ORs Source A's flag
with the matched Source-B record's flag (false when unmatched), and a
Source-B-only reading carries Source B's flag alone. -/
theorem processRideData_isOpen (qd : List QRide) (td : List TRide) (m : Mapping)
    (r : WaitTimeData) (hr : r ∈ processRideData qd td m) :
    (∃ a ∈ qd, r = reconcileA td m a ∧
        r.isOpen = (a.is_open || openOf (lookupB td m a.id)) ∧
        (r.isOpen = true ↔
          a.is_open = true ∨ openOf (lookupB td m a.id) = true)) ∨
    (∃ b ∈ td, r = reconcileB b ∧ r.isOpen = b.is_open ∧
        (r.isOpen = true ↔ b.is_open = true)) := by
  rw [processRideData_eq] at hr
  rcases List.mem_append.mp hr with h | h
  · obtain ⟨a, ha, rfl⟩ := List.mem_map.mp h
    left
    refine ⟨a, ha, rfl, ?_, ?_⟩
    · simp [reconcileA]
    · simp [reconcileA, Bool.or_eq_true]
  · obtain ⟨b, hb, rfl⟩ := List.mem_map.mp h
    right
    refine ⟨b, (List.mem_filter.mp hb).1, rfl, ?_, ?_⟩
    · simp [reconcileB]
    · simp [reconcileB]

/-- Witness for the C7 theorem: the matched reading of `qOk`/`tOk`/`mOk`. -/
theorem processRideData_isOpen_witness :
    (∃ a ∈ qOk,
        reconcileA tOk mOk ⟨"1", "Space Mountain", 45, true⟩ =
          reconcileA tOk mOk a ∧
        (reconcileA tOk mOk ⟨"1", "Space Mountain", 45, true⟩).isOpen =
          (a.is_open || openOf (lookupB tOk mOk a.id)) ∧
        ((reconcileA tOk mOk ⟨"1", "Space Mountain", 45, true⟩).isOpen = true ↔
          a.is_open = true ∨ openOf (lookupB tOk mOk a.id) = true)) ∨
    (∃ b ∈ tOk,
        reconcileA tOk mOk ⟨"1", "Space Mountain", 45, true⟩ = reconcileB b ∧
        (reconcileA tOk mOk ⟨"1", "Space Mountain", 45, true⟩).isOpen =
          b.is_open ∧
        ((reconcileA tOk mOk ⟨"1", "Space Mountain", 45, true⟩).isOpen = true ↔
          b.is_open = true)) :=
  processRideData_isOpen qOk tOk mOk
    (reconcileA tOk mOk ⟨"1", "Space Mountain", 45, true⟩)
    (by
      rw [processRideData_eq]
      exact List.mem_append_left _
        (List.mem_map.mpr ⟨_, List.mem_singleton.mpr rfl, rfl⟩))

/-- Claim C8: the confidence score is 0 exactly when both inputs are absent;
it always lies in `[0, 1]`; and every reading emitted by `processRideData`
has a strictly positive confidence score (bounded by 1). -/
theorem confidenceScore_invariant (q t : Option ℚ) (qd : List QRide)
    (td : List TRide) (m : Mapping) (r : WaitTimeData)
    (hr : r ∈ processRideData qd td m) :
    (calculateConfidence q t = 0 ↔ q = none ∧ t = none) ∧
    (0 ≤ calculateConfidence q t ∧ calculateConfidence q t ≤ 1) ∧
    (0 < r.confidenceScore ∧ r.confidenceScore ≤ 1) := by
  refine ⟨calculateConfidence_eq_zero_iff q t, calculateConfidence_bounds q t, ?_⟩
  rw [processRideData_eq] at hr
  rcases List.mem_append.mp hr with h | h
  · obtain ⟨a, ha, rfl⟩ := List.mem_map.mp h
    rw [reconcileA_conf]
    exact ⟨calculateConfidence_pos_left _ _, (calculateConfidence_bounds _ _).2⟩
  · obtain ⟨b, hb, rfl⟩ := List.mem_map.mp h
    rw [reconcileB_conf]
    exact ⟨calculateConfidence_pos_right _ _, (calculateConfidence_bounds _ _).2⟩

/-- Witness for the C8 theorem at `q = some 45`, `t = none` and the matched
reading of `qOk`/`tOk`/`mOk`. -/
theorem confidenceScore_invariant_witness :
    (calculateConfidence (some 45) none = 0 ↔
      (some 45 : Option ℚ) = none ∧ (none : Option ℚ) = none) ∧
    (0 ≤ calculateConfidence (some 45) none ∧
      calculateConfidence (some 45) none ≤ 1) ∧
    (0 < (reconcileA tOk mOk ⟨"1", "Space Mountain", 45, true⟩).confidenceScore ∧
      (reconcileA tOk mOk ⟨"1", "Space Mountain", 45, true⟩).confidenceScore ≤ 1) :=
  confidenceScore_invariant (some 45) none qOk tOk mOk
    (reconcileA tOk mOk ⟨"1", "Space Mountain", 45, true⟩)
    (by
      rw [processRideData_eq]
      exact List.mem_append_left _
        (List.mem_map.mpr ⟨_, List.mem_singleton.mpr rfl, rfl⟩))

/-- Claim C9: when every supplied wait time is non-negative, the
`aggregatedWait` of every emitted reading is defined and non-negative. -/
theorem aggregatedWait_nonneg (qd : List QRide) (td : List TRide) (m : Mapping)
    (hq : ∀ a ∈ qd, 0 ≤ a.wait_time) (ht : ∀ b ∈ td, 0 ≤ b.wait_time) :
    ∀ r ∈ processRideData qd td m, 0 ≤ r.aggregatedWait := by
  intro r hr
  rw [processRideData_eq] at hr
  rcases List.mem_append.mp hr with h | h
  · obtain ⟨a, ha, rfl⟩ := List.mem_map.mp h
    have hwa := hq a ha
    have hval : (reconcileA td m a).aggregatedWait =
        (aggregateWaitTime (some a.wait_time)
          ((lookupB td m a.id).map TRide.wait_time)).1 := by
      simp [reconcileA]
    rw [hval]
    rcases hl : lookupB td m a.id with _ | tr
    · exact le_of_le_of_eq hwa rfl
    · have hwt := ht tr (lookupB_mem td m a.id tr hl)
      have he : (aggregateWaitTime (some a.wait_time)
          ((some tr).map TRide.wait_time)).1 =
          jsRound (a.wait_time * (55/100) + tr.wait_time * (45/100)) := rfl
      rw [he]
      exact jsRound_nonneg _ (by positivity)
  · obtain ⟨b, hb, rfl⟩ := List.mem_map.mp h
    have he : (reconcileB b).aggregatedWait = b.wait_time := rfl
    rw [he]
    exact ht b (List.mem_filter.mp hb).1

/-- Witness for the C9 theorem: the matched reading of `qOk`/`tOk`/`mOk`. -/
theorem aggregatedWait_nonneg_witness :
    0 ≤ (reconcileA tOk mOk ⟨"1", "Space Mountain", 45, true⟩).aggregatedWait :=
  aggregatedWait_nonneg qOk tOk mOk
    (by
      intro a ha
      simp only [qOk, List.mem_cons, List.not_mem_nil, or_false] at ha
      rcases ha with rfl <;> norm_num)
    (by
      intro b hb
      simp only [tOk, List.mem_cons, List.not_mem_nil, or_false] at hb
      rcases hb with rfl | rfl <;> norm_num)
    (reconcileA tOk mOk ⟨"1", "Space Mountain", 45, true⟩)
    (by
      rw [processRideData_eq]
      exact List.mem_append_left _
        (List.mem_map.mpr ⟨_, List.mem_singleton.mpr rfl, rfl⟩))

end ParkMetrics
